import Mathlib

/-!
Shallow embedding of the resilient authenticated HTTP client subsystem of
`amazon-connect-pstn-transfer` (Go implementation at the repository root:
`httpclient.go` and `auth.go`), together with theorems checking the
natural-language specification against it.

Modelling conventions:
* Go `error` values are modelled as `Option String` / `Except String _`
  carrying the `fmt.Errorf` message text (structured error tags are used
  where the spec distinguishes error classes, with a `render` function
  producing the exact Go message string).
* The network is an explicit environment: the outcome of the i-th call to
  the wrapped `http.Client.Do` is a field of the environment, as is the
  observed state of `req.Context().Err()` at each checkpoint.
* `time.Duration` / `time.Time` are modelled as exact integers (seconds for
  the token cache, where only `expires_in` seconds and the 5-minute buffer
  occur); Go's float64 arithmetic in `ExponentialBackoff` is modelled as
  exact rational arithmetic with explicit truncation toward zero, and
  `rand.Float64()` as a rational parameter in `[0, 1)`.  Machine-integer
  wrap-around is modelled explicitly (`wrap64`) where a claim's domain
  reaches it, namely in `ExponentialBackoff`'s int64 `time.Duration`
  arithmetic; in the token cache the quantities involved (seconds since an
  epoch, `expires_in`) stay far below 2^63.
-/

namespace PstnTransfer

/-- Go source `httpclient.go`, `IsRetryableError`:
an error (`err != nil`, modelled as `some msg`) is always retryable;
otherwise retry exactly on 5xx status codes. -/
def IsRetryableError (err : Option String) (statusCode : Nat) : Bool :=
  match err with
  | some _ => true
  | none => decide (500 ≤ statusCode ∧ statusCode < 600)

/-- Outcome of one invocation of the wrapped `c.client.Do`: either a
transport-level error carrying its message, or a received response,
of which only the status code is relevant to the retry loop. -/
inductive Outcome where
  | netErr (msg : String)
  | resp (status : Nat)
deriving DecidableEq

/-- Whether an attempt outcome takes the retry path of `retryHTTPClient.Do`
(`IsRetryableError` applied the way the loop applies it). -/
def Outcome.retryable : Outcome → Bool
  | .netErr m => IsRetryableError (some m) 0
  | .resp s => IsRetryableError none s

/-- The environment of one logical `retryHTTPClient.Do` call:
`outcome i` is what the i-th network attempt would yield, and
`ctxErr i` is whether `req.Context().Err() != nil` when observed after `i`
completed attempts (checked before the loop for `i = 0`, and at the top of
each retry iteration for `i ≥ 1`; a cancellation firing during the backoff
sleep is subsumed by the check at the same index).  `ctxErrMsg` is the text
of `req.Context().Err()`. -/
structure DoEnv where
  outcome : Nat → Outcome
  ctxErr : Nat → Bool
  ctxErrMsg : String

/-- The text of the error recorded as `lastErr` in `retryHTTPClient.Do` when
a retryable status code is received. -/
def retryableStatusErr (status : Nat) : String :=
  "request returned retryable status: " ++ toString status

/-- The error classes `retryHTTPClient.Do` can return, tagged by the
`fmt.Errorf` call site that builds them. -/
inductive DoError where
  | ctxCancelled (msg : String)
  | nonRetryableNet (msg : String)
  | exhausted (total : Nat) (lastErr : Option String) (lastStatus : Option Nat)
deriving DecidableEq

/-- The exact Go error message for each `DoError`, mirroring the
`fmt.Errorf` format strings of `retryHTTPClient.Do`. -/
def DoError.render : DoError → String
  | .ctxCancelled m => "context cancelled: " ++ m
  | .nonRetryableNet m => "error making HTTP request: " ++ m
  | .exhausted n (some e) _ =>
      "request failed after " ++ toString n ++ " attempts: " ++ e
  | .exhausted n none (some s) =>
      "request failed after " ++ toString n ++ " attempts with status: " ++ toString s
  | .exhausted n none none =>
      "request failed after " ++ toString n ++ " attempts"

/-- Result of one logical `retryHTTPClient.Do` call: the returned response's
status or the returned error, together with the number of network calls
(invocations of the wrapped `c.client.Do`) that were issued. -/
inductive DoResult where
  | resp (status : Nat) (calls : Nat)
  | fail (e : DoError) (calls : Nat)
deriving DecidableEq

/-- Number of network calls issued by a `Do` run. -/
def DoResult.calls : DoResult → Nat
  | .resp _ c => c
  | .fail _ c => c

/-- The attempt loop of `retryHTTPClient.Do` (Go `for attempt := 0;
attempt <= c.maxRetries; attempt++`), as a fueled recursion with
`fuel = maxRetries + 1 - attempt` remaining iterations.  Faithful to the
source in order of checks: when `fuel` runs out the loop exits to the
exhaustion returns; inside an iteration, for `attempt > 0` the context is
checked first (the backoff sleep changes no observable state and is
omitted); then the network call is issued; a transport error is recorded as
`lastErr` and retried iff `IsRetryableError(err, 0)`; a response is
returned immediately iff its status is not retryable, otherwise the body is
drained (not modelled) and `lastErr`/`lastResp` are recorded.  Request body
capture/replay and Authorization-header injection do not affect the
observables treated here and are omitted (`authConfig == nil`). -/
def doGo (env : DoEnv) (maxRetries : Nat) :
    Nat → Nat → Option String → Option Nat → DoResult
  | 0, attempt, lastErr, lastResp =>
      .fail (.exhausted (maxRetries + 1) lastErr lastResp) attempt
  | fuel + 1, attempt, lastErr, lastResp =>
      if 0 < attempt ∧ env.ctxErr attempt then
        .fail (.ctxCancelled env.ctxErrMsg) attempt
      else
        match env.outcome attempt with
        | .netErr m =>
            if IsRetryableError (some m) 0 then
              doGo env maxRetries fuel (attempt + 1) (some m) lastResp
            else
              .fail (.nonRetryableNet m) (attempt + 1)
        | .resp s =>
            if IsRetryableError none s then
              doGo env maxRetries fuel (attempt + 1)
                (some (retryableStatusErr s)) (some s)
            else
              .resp s (attempt + 1)

/-- `retryHTTPClient.Do`: the pre-loop context check followed by the
attempt loop. -/
def Do (env : DoEnv) (maxRetries : Nat) : DoResult :=
  if env.ctxErr 0 then .fail (.ctxCancelled env.ctxErrMsg) 0
  else doGo env maxRetries (maxRetries + 1) 0 none none

/-- The `(lastErr, lastResp)` pair held by the loop after `k` completed
attempts whose outcomes all took the retry path. -/
def lastState (env : DoEnv) : Nat → Option String × Option Nat
  | 0 => (none, none)
  | k + 1 =>
      let st := lastState env k
      match env.outcome k with
      | .netErr m => (some m, st.2)
      | .resp s =>
          if IsRetryableError none s then (some (retryableStatusErr s), some s)
          else st

/-- Description of a retryable outcome as recorded in `lastErr`. -/
def Outcome.lastErrText : Outcome → String
  | .netErr m => m
  | .resp s => retryableStatusErr s

example : IsRetryableError none 500 = true := by decide
example : IsRetryableError none 400 = false := by decide
example : IsRetryableError none 429 = false := by decide
example : IsRetryableError (some "boom") 0 = true := by decide

/-- Substring helpers used only to state that an error message does or does
not contain a given text. -/
def charsMatchAt : List Char → List Char → Bool
  | [], _ => true
  | _ :: _, [] => false
  | a :: p, b :: l => a == b && charsMatchAt p l

def containsSegAux (p : List Char) : List Char → Bool
  | [] => charsMatchAt p []
  | b :: l => charsMatchAt p (b :: l) || containsSegAux p l

/-- `containsSeg hay needle` is true iff `needle` occurs contiguously in
`hay`. -/
def containsSeg (hay needle : String) : Bool :=
  containsSegAux needle.data hay.data

example : containsSeg "request failed after 3 attempts" "3 attempts" = true := by
  decide

/-- If the first `k ≤ n + 1` attempt outcomes are all retryable and the
context is not cancelled at any checkpoint up to the start of iteration
`k`, the run equals the loop resumed at iteration `k` with the
accumulated `(lastErr, lastResp)` state. -/
theorem doGo_reach (env : DoEnv) (n : Nat) :
    ∀ k, k ≤ n + 1 →
    (∀ i, i < k → (env.outcome i).retryable = true) →
    (∀ i, 1 ≤ i → i < k → env.ctxErr i = false) →
    env.ctxErr 0 = false →
    Do env n = doGo env n (n + 1 - k) k (lastState env k).1 (lastState env k).2 := by
  intro k
  induction k with
  | zero =>
      intro _ _ _ h0
      simp [Do, h0, lastState]
  | succ k ih =>
      intro hk hout hctx h0
      have hkn : k ≤ n := Nat.lt_succ_iff.mp hk
      have heq := ih (Nat.le_of_succ_le hk)
        (fun i hi => hout i (Nat.lt_succ_of_lt hi))
        (fun i h1 hi => hctx i h1 (Nat.lt_succ_of_lt hi)) h0
      rw [heq]
      have hfuel : n + 1 - k = (n - k) + 1 := by omega
      rw [hfuel]
      have hguard : ¬ (0 < k ∧ env.ctxErr k) := by
        rintro ⟨hpos, hce⟩
        rw [hctx k hpos (Nat.lt_succ_self k)] at hce
        exact Bool.false_ne_true hce
      have hfuel2 : n + 1 - (k + 1) = n - k := by omega
      cases hov : env.outcome k with
      | netErr m =>
          have hls : lastState env (k + 1) = (some m, (lastState env k).2) := by
            simp [lastState, hov]
          rw [hfuel2, hls]
          simp [doGo, hguard, hov, IsRetryableError]
      | resp s =>
          have hr : IsRetryableError none s = true := by
            have := hout k (Nat.lt_succ_self k)
            simpa [Outcome.retryable, hov] using this
          have hls : lastState env (k + 1)
              = (some (retryableStatusErr s), some s) := by
            simp [lastState, hov, hr]
          rw [hfuel2, hls]
          simp [doGo, hguard, hov, hr]

/-- The loop's `error making HTTP request` return is never produced: every
transport-level error satisfies `IsRetryableError`, so the guard of that
branch can never hold. -/
theorem doGo_ne_nonRetryableNet (env : DoEnv) (n : Nat) :
    ∀ fuel attempt le lr m c,
      doGo env n fuel attempt le lr ≠ .fail (.nonRetryableNet m) c := by
  intro fuel
  induction fuel with
  | zero => intro attempt le lr m c; simp [doGo]
  | succ fuel ih =>
      intro attempt le lr m c
      by_cases hg : 0 < attempt ∧ env.ctxErr attempt
      · simp [doGo, hg]
      · cases hov : env.outcome attempt with
        | netErr mm =>
            simpa [doGo, hg, hov, IsRetryableError] using ih (attempt + 1) (some mm) lr m c
        | resp s =>
            by_cases hs : IsRetryableError none s = true
            · simpa [doGo, hg, hov, hs] using
                ih (attempt + 1) (some (retryableStatusErr s)) (some s) m c
            · simp [doGo, hg, hov, hs]

/-- An environment in which every attempt receives a 429 response and the
context is never cancelled. -/
def env429 : DoEnv where
  outcome := fun _ => .resp 429
  ctxErr := fun _ => false
  ctxErrMsg := "context canceled"

/-- C1: the claim (and the spec) say a 408 or 429 response triggers a retry
while budget remains. The code evaluated at those inputs disagrees:
`IsRetryableError` classifies 408 and 429 as non-retryable (only 5xx is
retried), so a `Do` call with `maxRetries = 2` whose first response is 429
issues exactly one network call and returns the 429 response immediately. -/
theorem c1_retry_statuses_eval :
    IsRetryableError none 408 = false
    ∧ IsRetryableError none 429 = false
    ∧ IsRetryableError none 500 = true
    ∧ Do env429 2 = .resp 429 1 :=
  ⟨by decide, by decide, by decide, by decide⟩

/-- An environment whose first attempt fails with a transport error and
whose later attempts receive 500 responses, with no cancellation. -/
def envMixed : DoEnv where
  outcome := fun i => if i = 0 then .netErr "connection refused" else .resp 500
  ctxErr := fun _ => false
  ctxErrMsg := "context canceled"

/-- C2 (counterexample): with `maxRetries = 1`, attempt 0 a network error
`connection refused` and attempt 1 a retryable 500 status, the exhaustion
error message is built from the *last* retryable outcome (the 500 status)
and does not include the last network error message, although one exists —
contradicting the claim's "includes the last network error message if one
exists". -/
theorem c2_counterexample :
    Do envMixed 1
      = .fail (.exhausted 2 (some (retryableStatusErr 500)) (some 500)) 2
    ∧ envMixed.outcome 0 = .netErr "connection refused"
    ∧ containsSeg
        ((DoError.exhausted 2 (some (retryableStatusErr 500)) (some 500)).render)
        "connection refused" = false :=
  ⟨by decide, by decide, by decide⟩

/-- C2 (amended): for every `maxRetries = n ≥ 0`, if every attempt yields a
retryable outcome and the context is never cancelled, the call performs
exactly `n + 1` network attempts and fails with an error whose message
reports the total attempt count `n + 1` and includes the description of
the final attempt's retryable outcome: the last network error message if
the final attempt failed at transport level, else the last retryable
status code. -/
theorem c2_exhaustion_amended (env : DoEnv) (n : Nat)
    (hout : ∀ i, i ≤ n → (env.outcome i).retryable = true)
    (hctx : ∀ i, 1 ≤ i → i ≤ n → env.ctxErr i = false)
    (h0 : env.ctxErr 0 = false) :
    Do env n
      = .fail (.exhausted (n + 1) (some ((env.outcome n).lastErrText))
          (lastState env (n + 1)).2) (n + 1)
    ∧ (DoError.exhausted (n + 1) (some ((env.outcome n).lastErrText))
          (lastState env (n + 1)).2).render
      = "request failed after " ++ toString (n + 1) ++ " attempts: "
          ++ (env.outcome n).lastErrText := by
  have hreach := doGo_reach env n (n + 1) le_rfl
    (fun i hi => hout i (by omega))
    (fun i h1 hi => hctx i h1 (by omega)) h0
  have hlast : (lastState env (n + 1)).1 = some ((env.outcome n).lastErrText) := by
    cases hov : env.outcome n with
    | netErr m => simp [lastState, hov, Outcome.lastErrText]
    | resp s =>
        have hr : IsRetryableError none s = true := by
          have := hout n le_rfl
          simpa [Outcome.retryable, hov] using this
        simp [lastState, hov, hr, Outcome.lastErrText]
  constructor
  · rw [hreach, Nat.sub_self, hlast]
    simp [doGo]
  · simp [DoError.render]

/-- An environment in which every attempt receives a 500 response and the
context is never cancelled. -/
def envAll500 : DoEnv where
  outcome := fun _ => .resp 500
  ctxErr := fun _ => false
  ctxErrMsg := "context canceled"

/-- Witness for C2 (amended): always-500 with `maxRetries = 2` makes
exactly 3 calls and fails with the message built from the last retryable
status. -/
theorem c2_witness :
    Do envAll500 2
      = .fail (.exhausted 3 (some (retryableStatusErr 500)) (some 500)) 3 :=
  (c2_exhaustion_amended envAll500 2 (fun _ _ => rfl) (fun _ _ _ => rfl) rfl).1

/-- C3: if attempt `k` fails at the transport level, the error is recorded
as the last error and the loop proceeds to the next iteration (first
conjunct); when the error came with cancellation of the request's context
(so the context is observed cancelled at the next checkpoint) the whole
call fails before any further network attempt — with the `context
cancelled` error when retry budget remained, and with the exhaustion error
embedding the transport error's message when attempt `k` was the last
(second and third conjuncts). -/
theorem c3_cancellation_behavior (env : DoEnv) (n k : Nat) (msg : String)
    (hk : k ≤ n)
    (hout : ∀ i, i < k → (env.outcome i).retryable = true)
    (hctx : ∀ i, 1 ≤ i → i ≤ k → env.ctxErr i = false)
    (h0 : env.ctxErr 0 = false)
    (hnet : env.outcome k = .netErr msg) :
    Do env n = doGo env n (n - k) (k + 1) (some msg) (lastState env k).2
    ∧ (k < n → env.ctxErr (k + 1) = true →
        Do env n = .fail (.ctxCancelled env.ctxErrMsg) (k + 1))
    ∧ (k = n →
        Do env n
          = .fail (.exhausted (n + 1) (some msg) (lastState env k).2) (n + 1)) := by
  have hreach := doGo_reach env n k (by omega)
    hout (fun i h1 hi => hctx i h1 (by omega)) h0
  have hguard : ¬ (0 < k ∧ env.ctxErr k) := by
    rintro ⟨hpos, hce⟩
    rw [hctx k hpos le_rfl] at hce
    exact Bool.false_ne_true hce
  have hfuel : n + 1 - k = (n - k) + 1 := by omega
  have hstep : Do env n = doGo env n (n - k) (k + 1) (some msg) (lastState env k).2 := by
    rw [hreach, hfuel]
    simp [doGo, hguard, hnet, IsRetryableError]
  refine ⟨hstep, ?_, ?_⟩
  · intro hkn hcx
    rw [hstep]
    have hf2 : n - k = (n - (k + 1)) + 1 := by omega
    rw [hf2]
    simp [doGo, hcx]
  · intro hkn
    subst hkn
    rw [hstep, Nat.sub_self]
    simp [doGo]

/-- An environment whose attempts all fail with a context-cancellation
transport error, the request's context being observed cancelled from the
first retry checkpoint on. -/
def envCancel : DoEnv where
  outcome := fun _ => .netErr "Post: context canceled"
  ctxErr := fun i => decide (1 ≤ i)
  ctxErrMsg := "context canceled"

/-- Witness for C3: a cancellation-induced transport error on attempt 0
with `maxRetries = 1` makes the call fail with the `context cancelled`
error after exactly one network call. -/
theorem c3_witness :
    Do envCancel 1 = .fail (.ctxCancelled "context canceled") 1 :=
  (c3_cancellation_behavior envCancel 1 0 "Post: context canceled"
      (by decide)
      (fun i hi => absurd hi (by omega))
      (fun i h1 h2 => absurd (Nat.le_trans h1 h2) (by decide))
      rfl rfl).2.1 (by decide) rfl

/-- C10: `IsRetryableError` returns true for every non-nil error, so the
`error making HTTP request` early return of `retryHTTPClient.Do` is
unreachable (no run of `Do` ever produces it), and every transport-level
error — cancellation errors included — takes the retry path of the loop:
the iteration reduces to the next iteration with the error recorded as the
last error. -/
theorem c10_neterr_always_retry_path :
    (∀ e s, IsRetryableError (some e) s = true)
    ∧ (∀ env n m c, Do env n ≠ .fail (.nonRetryableNet m) c)
    ∧ (∀ env n fuel attempt le lr m,
        env.outcome attempt = .netErr m →
        (0 < attempt → env.ctxErr attempt = false) →
        doGo env n (fuel + 1) attempt le lr
          = doGo env n fuel (attempt + 1) (some m) lr) := by
  refine ⟨fun e s => rfl, ?_, ?_⟩
  · intro env n m c
    by_cases h0 : env.ctxErr 0 = true
    · simp [Do, h0]
    · have h0' : env.ctxErr 0 = false := by
        cases hv : env.ctxErr 0
        · rfl
        · exact absurd hv h0
      simp only [Do, h0', Bool.false_eq_true, if_false]
      exact doGo_ne_nonRetryableNet env n (n + 1) 0 none none m c
  · intro env n fuel attempt le lr m hnet hctxh
    have hguard : ¬ (0 < attempt ∧ env.ctxErr attempt) := by
      rintro ⟨hpos, hce⟩
      rw [hctxh hpos] at hce
      exact Bool.false_ne_true hce
    simp [doGo, hguard, hnet, IsRetryableError]

/-- Witness for C10: concrete instances of all three conjuncts. -/
theorem c10_witness :
    IsRetryableError (some "connection refused") 0 = true
    ∧ Do envCancel 1 ≠ .fail (.nonRetryableNet "Post: context canceled") 1
    ∧ doGo envCancel 1 1 0 none none
        = doGo envCancel 1 0 1 (some "Post: context canceled") none :=
  ⟨c10_neterr_always_retry_path.1 "connection refused" 0,
   c10_neterr_always_retry_path.2.1 envCancel 1 "Post: context canceled" 1,
   c10_neterr_always_retry_path.2.2 envCancel 1 0 0 none none
     "Post: context canceled" rfl (fun h => absurd h (by decide))⟩

/-! ### Auth Header Resolver (`httpclient.go`, `retryHTTPClient.getAuthHeader`) -/

instance {ε α : Type} [DecidableEq ε] [DecidableEq α] :
    DecidableEq (Except ε α) := fun x y =>
  match x, y with
  | .ok a, .ok b =>
      if h : a = b then .isTrue (by rw [h])
      else .isFalse (fun hc => h (Except.ok.inj hc))
  | .error a, .error b =>
      if h : a = b then .isTrue (by rw [h])
      else .isFalse (fun hc => h (Except.error.inj hc))
  | .ok _, .error _ => .isFalse (fun hc => Except.noConfusion hc)
  | .error _, .ok _ => .isFalse (fun hc => Except.noConfusion hc)

/-- `AuthConfig` of `httpclient.go`.  The `TokenFetcher` interface field is
modelled by its nil-ness together with the result its `GetToken` method
would return for this call (`none` = nil fetcher; `some r` = configured
fetcher whose call yields `r`). -/
structure AuthConfig where
  apiKey : String
  region : String
  oauthClientID : String
  oauthClientSecret : String
  tokenFetcher : Option (Except String String)
deriving DecidableEq

/-- `retryHTTPClient.getAuthHeader`: nil config is an error; OAuth 2 takes
precedence when client id and secret are both non-empty, requiring a
fetcher and a non-empty region in that order of checks; otherwise fall
back to the deprecated API key; otherwise fail. -/
def getAuthHeader (authConfig : Option AuthConfig) : Except String String :=
  match authConfig with
  | none => .error "authConfig is required"
  | some cfg =>
      if cfg.oauthClientID ≠ "" ∧ cfg.oauthClientSecret ≠ "" then
        match cfg.tokenFetcher with
        | none => .error "tokenFetcher is required for OAuth authentication"
        | some fetch =>
            if cfg.region = "" then
              .error "region is required for OAuth authentication"
            else
              match fetch with
              | .error e => .error ("error fetching OAuth token: " ++ e)
              | .ok token => .ok ("Bearer " ++ token)
      else if cfg.apiKey ≠ "" then .ok ("ApiKey " ++ cfg.apiKey)
      else .error "no authentication configured"

example :
    getAuthHeader (some ⟨"", "us", "id", "sec", some (.ok "tok")⟩)
      = .ok "Bearer tok" := by decide

/-- C4: the case analysis of the Auth Header Resolver.  With client id and
secret both non-empty: a nil fetcher or empty region is a configuration
error (no silent fallback), and otherwise the fetched token is returned as
`Bearer <token>` — regardless of any static key, so OAuth 2 takes
precedence.  With both OAuth fields absent: a non-empty static key yields
`ApiKey <key>`, and an empty one fails with `no authentication
configured`. -/
theorem c4_auth_header_cases :
    (∀ cfg : AuthConfig, cfg.oauthClientID ≠ "" → cfg.oauthClientSecret ≠ "" →
        cfg.tokenFetcher = none →
        getAuthHeader (some cfg)
          = .error "tokenFetcher is required for OAuth authentication")
    ∧ (∀ (cfg : AuthConfig) (f : Except String String),
        cfg.oauthClientID ≠ "" → cfg.oauthClientSecret ≠ "" →
        cfg.tokenFetcher = some f → cfg.region = "" →
        getAuthHeader (some cfg)
          = .error "region is required for OAuth authentication")
    ∧ (∀ (cfg : AuthConfig) (t : String),
        cfg.oauthClientID ≠ "" → cfg.oauthClientSecret ≠ "" →
        cfg.tokenFetcher = some (.ok t) → cfg.region ≠ "" →
        getAuthHeader (some cfg) = .ok ("Bearer " ++ t))
    ∧ (∀ cfg : AuthConfig, cfg.oauthClientID = "" → cfg.oauthClientSecret = "" →
        cfg.apiKey ≠ "" →
        getAuthHeader (some cfg) = .ok ("ApiKey " ++ cfg.apiKey))
    ∧ (∀ cfg : AuthConfig, cfg.oauthClientID = "" → cfg.oauthClientSecret = "" →
        cfg.apiKey = "" →
        getAuthHeader (some cfg) = .error "no authentication configured") := by
  refine ⟨?_, ?_, ?_, ?_, ?_⟩
  · intro cfg hid hsec hf
    simp [getAuthHeader, hid, hsec, hf]
  · intro cfg f hid hsec hf hr
    simp [getAuthHeader, hid, hsec, hf, hr]
  · intro cfg t hid hsec hf hr
    simp [getAuthHeader, hid, hsec, hf, hr]
  · intro cfg hid hsec hk
    simp [getAuthHeader, hid, hk]
  · intro cfg hid hsec hk
    simp [getAuthHeader, hid, hk]

/-- Witness for C4: each case at a concrete configuration. -/
theorem c4_witness :
    getAuthHeader (some ⟨"k", "us", "id", "sec", none⟩)
      = .error "tokenFetcher is required for OAuth authentication"
    ∧ getAuthHeader (some ⟨"k", "", "id", "sec", some (.ok "tok")⟩)
      = .error "region is required for OAuth authentication"
    ∧ getAuthHeader (some ⟨"k", "us", "id", "sec", some (.ok "tok")⟩)
      = .ok ("Bearer " ++ "tok")
    ∧ getAuthHeader (some ⟨"k", "", "", "", none⟩) = .ok ("ApiKey " ++ "k")
    ∧ getAuthHeader (some ⟨"", "", "", "", none⟩)
      = .error "no authentication configured" :=
  ⟨c4_auth_header_cases.1 ⟨"k", "us", "id", "sec", none⟩
      (by decide) (by decide) rfl,
   c4_auth_header_cases.2.1 ⟨"k", "", "id", "sec", some (.ok "tok")⟩
      (.ok "tok") (by decide) (by decide) rfl rfl,
   c4_auth_header_cases.2.2.1 ⟨"k", "us", "id", "sec", some (.ok "tok")⟩
      "tok" (by decide) (by decide) rfl (by decide),
   c4_auth_header_cases.2.2.2.1 ⟨"k", "", "", "", none⟩ rfl rfl (by decide),
   c4_auth_header_cases.2.2.2.2 ⟨"", "", "", "", none⟩ rfl rfl rfl⟩

/-- C5 (counterexample): a partially specified OAuth 2 configuration
(client id set, secret empty) together with a static API key does not fail
— `getAuthHeader` silently falls back to `ApiKey` authentication,
contradicting the claim that such a configuration is a fatal configuration
error. -/
theorem c5_counterexample :
    getAuthHeader (some ⟨"key", "us", "id", "", none⟩) = .ok "ApiKey key" := by
  decide

/-- C5 (amended): when exactly one of OAuth client id and client secret is
non-empty, auth-header resolution does not treat this as an error if a
static API key is present: it falls back to `ApiKey <key>`.  Only when the
API key is also empty does it fail, with `no authentication
configured`. -/
theorem c5_partial_oauth_amended (cfg : AuthConfig)
    (honeof : (cfg.oauthClientID = "") ≠ (cfg.oauthClientSecret = "")) :
    (cfg.apiKey ≠ "" →
        getAuthHeader (some cfg) = .ok ("ApiKey " ++ cfg.apiKey))
    ∧ (cfg.apiKey = "" →
        getAuthHeader (some cfg) = .error "no authentication configured") := by
  have hno : ¬ (cfg.oauthClientID ≠ "" ∧ cfg.oauthClientSecret ≠ "") := by
    rintro ⟨h1, h2⟩
    rcases eq_or_ne cfg.oauthClientID "" with hid | hid
    · exact h1 hid
    · rcases eq_or_ne cfg.oauthClientSecret "" with hs | hs
      · exact h2 hs
      · exact honeof (by simp [hid, hs])
  constructor
  · intro hk
    simp [getAuthHeader, hno, hk]
  · intro hk
    simp [getAuthHeader, hno, hk]

/-- Witness for C5 (amended): both branches at concrete configurations. -/
theorem c5_witness :
    getAuthHeader (some ⟨"key", "us", "id", "", none⟩) = .ok ("ApiKey " ++ "key")
    ∧ getAuthHeader (some ⟨"", "us", "", "sec", none⟩)
      = .error "no authentication configured" :=
  ⟨(c5_partial_oauth_amended ⟨"key", "us", "id", "", none⟩ (by decide)).1
      (by decide),
   (c5_partial_oauth_amended ⟨"", "us", "", "sec", none⟩ (by decide)).2 rfl⟩

/-! ### Token Cache and OAuth 2 Token Fetcher (`auth.go`)

Time is modelled as an integer count of seconds (`expires_in` is in
seconds and the safety buffer is 5 minutes; Go's `time.Duration`
nanoseconds rescale without affecting any comparison).  Go's truncated
integer division agrees with Lean's on the non-negative operands that
occur. -/

/-- `cacheKey` of `auth.go`. -/
def cacheKey (clientID : String) : String :=
  "pstn-transfer:tokencache:" ++ clientID

/-- `cacheEntry` of `auth.go`: token plus absolute expiry time. -/
structure CacheEntry where
  token : String
  expiresAt : Int
deriving DecidableEq

/-- The `TokenCache`'s map, as an association list whose most recent
binding for a key shadows older ones (the Go map semantics for the
operations used).  The reader/writer mutex has no observable effect in
this sequential model. -/
abbrev TokenCache := List (String × CacheEntry)

def TokenCache.lookup : TokenCache → String → Option CacheEntry
  | [], _ => none
  | (k, e) :: tc, key => if k = key then some e else TokenCache.lookup tc key

def TokenCache.store (tc : TokenCache) (key : String) (e : CacheEntry) :
    TokenCache :=
  (key, e) :: tc

/-- `TokenCache.GetCachedToken`: returns a cached token only if an entry
exists, its token is non-empty and `now` is strictly before its expiry;
otherwise the empty string. -/
def GetCachedToken (tc : TokenCache) (now : Int) (clientID : String) : String :=
  match tc.lookup (cacheKey clientID) with
  | some entry =>
      if entry.token ≠ "" ∧ now < entry.expiresAt then entry.token else ""
  | none => ""

/-- `TokenCache.SetToken`: store with expiry `now + expiresIn - buffer`,
the 5-minute safety buffer being halved to `expiresIn / 2` when
`expiresIn ≤ buffer`. -/
def SetToken (tc : TokenCache) (now : Int) (clientID token : String)
    (expiresIn : Int) : TokenCache :=
  let safetyBuffer : Int := 5 * 60
  let buffer := if expiresIn ≤ safetyBuffer then expiresIn / 2 else safetyBuffer
  tc.store (cacheKey clientID) ⟨token, now + expiresIn - buffer⟩

theorem cacheKey_injective {a b : String} (h : cacheKey a = cacheKey b) :
    a = b := by
  have h2 := congrArg String.data h
  simp only [cacheKey, String.data_append] at h2
  exact String.ext (List.append_cancel_left h2)

/-- Parsed token-endpoint response body (JSON fields `access_token`,
`token_type`, `expires_in`). -/
structure TokenResponse where
  accessToken : String
  tokenType : String
  expiresIn : Int
deriving DecidableEq

/-- Outcome of `io.ReadAll` plus `json.Unmarshal` on a 200 body. -/
inductive ParseOutcome where
  | readErr (msg : String)
  | parseErr (msg : String)
  | parsed (tr : TokenResponse)
deriving DecidableEq

/-- A received token-endpoint response: status code, raw body text (used
verbatim in the non-200 error message) and the body's read/parse
outcome. -/
structure TokenHTTPResp where
  statusCode : Nat
  rawBody : String
  parse : ParseOutcome
deriving DecidableEq

/-- Environment of one `DefaultOAuth2TokenFetcher.GetToken` call:
`reqErr` models a failure of `http.NewRequestWithContext`
(`json.Marshal` of the constant payload cannot fail), `httpResult` the
result of `f.client.Do` on the token request. -/
structure FetchEnv where
  reqErr : Option String
  httpResult : Except String TokenHTTPResp
deriving DecidableEq

/-- Result of a `GetToken` call: the returned token or error, the cache
after the call, and the number of network requests issued. -/
structure FetchResult where
  token : Except String String
  cache : TokenCache
  netCalls : Nat
deriving DecidableEq

/-- `DefaultOAuth2TokenFetcher.GetToken`: cache lookup first (zero network
calls on a hit); then the POST to the token endpoint; non-200, unreadable
or unparsable body, empty `access_token` and non-positive `expires_in`
each fail with the source's message; only the fully successful path
mutates the cache. -/
def GetToken (env : FetchEnv) (tc : TokenCache) (now : Int)
    (authDomain clientID clientSecret : String) : FetchResult :=
  let cached := GetCachedToken tc now clientID
  if cached ≠ "" then ⟨.ok cached, tc, 0⟩
  else
    match env.reqErr with
    | some e => ⟨.error ("error creating token request: " ++ e), tc, 0⟩
    | none =>
        match env.httpResult with
        | .error e => ⟨.error e, tc, 1⟩
        | .ok resp =>
            if resp.statusCode ≠ 200 then
              ⟨.error ("token request returned non-200 status: "
                  ++ toString resp.statusCode ++ ", body: " ++ resp.rawBody),
                tc, 1⟩
            else
              match resp.parse with
              | .readErr e =>
                  ⟨.error ("error reading token response: " ++ e), tc, 1⟩
              | .parseErr e =>
                  ⟨.error ("error parsing token response: " ++ e), tc, 1⟩
              | .parsed tr =>
                  if tr.accessToken = "" then
                    ⟨.error "missing access_token in token response", tc, 1⟩
                  else if 0 < tr.expiresIn then
                    ⟨.ok tr.accessToken,
                      SetToken tc now clientID tr.accessToken tr.expiresIn, 1⟩
                  else
                    ⟨.error ("invalid token response: expires_in is "
                        ++ toString tr.expiresIn ++ " (must be > 0)"), tc, 1⟩

/-- On a cache miss with a well-formed request, exactly one network call is
issued, whatever the endpoint's answer. -/
theorem getToken_miss_netCalls (env : FetchEnv) (tc : TokenCache) (now : Int)
    (dom c s : String) (hmiss : GetCachedToken tc now c = "")
    (hreq : env.reqErr = none) :
    (GetToken env tc now dom c s).netCalls = 1 := by
  simp only [GetToken, hmiss, hreq, ne_eq, not_true_eq_false, if_false,
    Bool.false_eq_true]
  cases h : env.httpResult with
  | error e => simp
  | ok resp =>
      by_cases hs : resp.statusCode = 200
      · cases hp : resp.parse with
        | readErr e => simp [hs, hp]
        | parseErr e => simp [hs, hp]
        | parsed tr =>
            by_cases ht : tr.accessToken = ""
            · simp [hs, hp, ht]
            · by_cases he : 0 < tr.expiresIn
              · simp [hs, hp, ht, he]
              · simp [hs, hp, ht, he]
      · simp [hs]

/-- C6: the Token Fetcher's cache behaviour.  A first call for identity `A`
with no cache entry and a successful exchange issues exactly one network
request and stores the token; a second call for `A` while the cached token
is still valid (before `now + expires_in - buffer`) issues zero network
requests and returns the cached token with the cache unchanged; a call for
a different identity `B` with no entry issues a network request again. -/
theorem c6_token_fetcher_cache (env env2 env3 : FetchEnv) (tc : TokenCache)
    (now now2 now3 : Int) (dom dom2 dom3 A B sec sec2 sec3 raw : String)
    (tr : TokenResponse)
    (hA : tc.lookup (cacheKey A) = none)
    (henv : env.reqErr = none)
    (hresp : env.httpResult = .ok ⟨200, raw, .parsed tr⟩)
    (htok : tr.accessToken ≠ "")
    (hexp : 300 < tr.expiresIn)
    (hnow2 : now2 < now + tr.expiresIn - 300)
    (hAB : B ≠ A)
    (hB : tc.lookup (cacheKey B) = none)
    (henv3 : env3.reqErr = none) :
    GetToken env tc now dom A sec
      = ⟨.ok tr.accessToken, SetToken tc now A tr.accessToken tr.expiresIn, 1⟩
    ∧ GetToken env2 (SetToken tc now A tr.accessToken tr.expiresIn) now2
        dom2 A sec2
      = ⟨.ok tr.accessToken, SetToken tc now A tr.accessToken tr.expiresIn, 0⟩
    ∧ (GetToken env3 (SetToken tc now A tr.accessToken tr.expiresIn) now3
        dom3 B sec3).netCalls = 1 := by
  have hbuf : ¬ (tr.expiresIn ≤ 5 * 60) := by omega
  refine ⟨?_, ?_, ?_⟩
  · have hmiss : GetCachedToken tc now A = "" := by
      simp [GetCachedToken, hA]
    simp [GetToken, hmiss, henv, hresp, htok,
      show (0:Int) < tr.expiresIn from by omega]
  · have hhit :
        GetCachedToken (SetToken tc now A tr.accessToken tr.expiresIn) now2 A
          = tr.accessToken := by
      simp [GetCachedToken, SetToken, TokenCache.store, TokenCache.lookup,
        hbuf, htok]
      omega
    simp [GetToken, hhit, htok]
  · have hkne : cacheKey A ≠ cacheKey B := fun h => hAB (cacheKey_injective h).symm
    have hmiss3 :
        GetCachedToken (SetToken tc now A tr.accessToken tr.expiresIn) now3 B
          = "" := by
      simp [GetCachedToken, SetToken, TokenCache.store, TokenCache.lookup,
        hkne, hB]
    exact getToken_miss_netCalls env3 _ now3 dom3 B sec3 hmiss3 henv3

/-- A successful token-exchange environment used in witnesses. -/
def trW : TokenResponse := ⟨"tok", "Bearer", 3600⟩

def envW : FetchEnv := ⟨none, .ok ⟨200, "body", .parsed trW⟩⟩

def envW3 : FetchEnv := ⟨none, .error "net down"⟩

/-- Witness for C6 at concrete inputs. -/
theorem c6_witness :
    GetToken envW [] 0 "https://auth" "id1" "sec"
      = ⟨.ok "tok", SetToken [] 0 "id1" "tok" 3600, 1⟩
    ∧ GetToken envW (SetToken [] 0 "id1" "tok" 3600) 1000 "https://auth"
        "id1" "sec"
      = ⟨.ok "tok", SetToken [] 0 "id1" "tok" 3600, 0⟩
    ∧ (GetToken envW3 (SetToken [] 0 "id1" "tok" 3600) 0 "https://auth"
        "id2" "sec").netCalls = 1 :=
  c6_token_fetcher_cache envW envW envW3 [] 0 1000 0
    "https://auth" "https://auth" "https://auth" "id1" "id2"
    "sec" "sec" "sec" "body" trW rfl rfl rfl (by decide) (by decide)
    (by decide) (by decide) rfl rfl

/-- C7: a 200 response whose parsed body has `expires_in ≤ 0` makes
`GetToken` fail with the `invalid token response` error for that call —
the access token is not returned and the cache is left unchanged. -/
theorem c7_expires_nonpositive (env : FetchEnv) (tc : TokenCache) (now : Int)
    (dom c s raw : String) (tr : TokenResponse)
    (hmiss : GetCachedToken tc now c = "")
    (hreq : env.reqErr = none)
    (hresp : env.httpResult = .ok ⟨200, raw, .parsed tr⟩)
    (htok : tr.accessToken ≠ "")
    (hexp : tr.expiresIn ≤ 0) :
    GetToken env tc now dom c s
      = ⟨.error ("invalid token response: expires_in is "
          ++ toString tr.expiresIn ++ " (must be > 0)"), tc, 1⟩ := by
  simp [GetToken, hmiss, hreq, hresp, htok,
    show ¬ ((0:Int) < tr.expiresIn) from by omega]

/-- An environment whose 200 response carries `expires_in = 0`. -/
def envExpire0 : FetchEnv :=
  ⟨none, .ok ⟨200, "body", .parsed ⟨"tok", "Bearer", 0⟩⟩⟩

/-- Witness for C7. -/
theorem c7_witness :
    GetToken envExpire0 [] 0 "https://auth" "id1" "sec"
      = ⟨.error ("invalid token response: expires_in is "
          ++ toString (0:Int) ++ " (must be > 0)"), [], 1⟩ :=
  c7_expires_nonpositive envExpire0 [] 0 "https://auth" "id1" "sec" "body"
    ⟨"tok", "Bearer", 0⟩ rfl rfl rfl (by decide) (by decide)

/-- C8: whenever `GetToken` returns an error — request construction
failure, transport error, non-200 status, unreadable or unparsable body,
missing `access_token` or invalid `expires_in` — the Token Cache is left
exactly as it was; only the fully successful exchange mutates it. -/
theorem c8_cache_unchanged_on_error (env : FetchEnv) (tc : TokenCache)
    (now : Int) (dom c s e : String)
    (herr : (GetToken env tc now dom c s).token = .error e) :
    (GetToken env tc now dom c s).cache = tc := by
  by_cases hc : GetCachedToken tc now c = ""
  · cases hreq : env.reqErr with
    | some e0 => simp [GetToken, hc, hreq]
    | none =>
        cases hh : env.httpResult with
        | error e0 => simp [GetToken, hc, hreq, hh]
        | ok resp =>
            by_cases hs : resp.statusCode = 200
            · cases hp : resp.parse with
              | readErr e0 => simp [GetToken, hc, hreq, hh, hs, hp]
              | parseErr e0 => simp [GetToken, hc, hreq, hh, hs, hp]
              | parsed tr =>
                  by_cases ht : tr.accessToken = ""
                  · simp [GetToken, hc, hreq, hh, hs, hp, ht]
                  · by_cases he : 0 < tr.expiresIn
                    · exfalso
                      simp [GetToken, hc, hreq, hh, hs, hp, ht, he] at herr
                    · simp [GetToken, hc, hreq, hh, hs, hp, ht, he]
            · simp [GetToken, hc, hreq, hh, hs]
  · simp [GetToken, hc]

/-- An environment whose token request comes back with status 500. -/
def env500 : FetchEnv := ⟨none, .ok ⟨500, "oops", .parseErr "invalid json"⟩⟩

/-- Witness for C8: a non-200 exchange leaves the cache unchanged. -/
theorem c8_witness :
    (GetToken env500 [] 0 "https://auth" "id1" "sec").cache = [] :=
  c8_cache_unchanged_on_error env500 [] 0 "https://auth" "id1" "sec"
    ("token request returned non-200 status: " ++ toString (500:Nat)
      ++ ", body: " ++ "oops") (by decide)

/-! ### Exponential backoff (`httpclient.go`, `ExponentialBackoff`)

The delay is computed in Go's int64 `time.Duration` arithmetic, whose
signed multiplication and addition wrap modulo 2^64 (two's complement);
this wrap-around is modelled explicitly by `wrap64`.  The jitter is
computed in float64 and converted to `time.Duration` by truncation toward
zero; that float arithmetic is idealized as exact rational arithmetic with
explicit truncation, with `rand.Float64()` the parameter `r ∈ [0, 1)`.
`time.Duration(math.Pow(2, float64(attempt)))` equals `2^attempt` exactly
for `attempt ≤ 62`; for larger exponents Go's float-to-int64 conversion is
implementation-specific, so the model's faithful domain is `attempt ≤ 62`
(all theorems below stay inside it). -/

/-- Two's-complement wrap-around into int64: the value in
`[-2^63, 2^63)` congruent to `x` modulo `2^64`. -/
def wrap64 (x : ℤ) : ℤ := (x + 2 ^ 63) % 2 ^ 64 - 2 ^ 63

/-- Go's float-to-integer conversion: truncation toward zero. -/
def ratTrunc (q : ℚ) : ℤ := if 0 ≤ q then ⌊q⌋ else ⌈q⌉

/-- `ExponentialBackoff`: `delay = 2^attempt * baseDelay` in wrapping int64
arithmetic, plus a jitter of `trunc(r * 0.25 * delay)` where `r` models
the `rand.Float64()` draw, the final sum again wrapping in int64. -/
def ExponentialBackoff (attempt : Nat) (baseDelay : ℤ) (r : ℚ) : ℤ :=
  let delay : ℤ := wrap64 (2 ^ attempt * baseDelay)
  wrap64 (delay + ratTrunc (r * (1/4) * (delay : ℚ)))

theorem wrap64_eq_self {x : ℤ} (h1 : -(2 ^ 63) ≤ x) (h2 : x < 2 ^ 63) :
    wrap64 x = x := by
  have h64 : (2:ℤ) ^ 64 = 2 * 2 ^ 63 := by norm_num
  unfold wrap64
  rw [Int.emod_eq_of_lt (by linarith) (by linarith)]
  ring

/-- C9 (counterexample): at `attempt = 31`, `baseDelay = 6s` (6·10^9 ns)
and jitter draw `r = 0`, the int64 product `2^31 * baseDelay` wraps to the
negative value `-5561842185709551616`, so the returned backoff lies far
below the claimed lower bound `base * 2^attempt` — the claim fails for
this attempt/base pair. -/
theorem c9_counterexample :
    ExponentialBackoff 31 6000000000 0 = -5561842185709551616
    ∧ ¬ (2 ^ 31 * (6000000000:ℤ) ≤ ExponentialBackoff 31 6000000000 0) := by
  have hv : ExponentialBackoff 31 6000000000 0 = -5561842185709551616 := by
    norm_num [ExponentialBackoff, wrap64, ratTrunc]
  refine ⟨hv, ?_⟩
  rw [hv]
  norm_num

/-- C9 (amended): for every `attempt ≥ 0`, positive base delay and jitter
draw `r ∈ [0, 1)` such that the int64 computation cannot wrap
(`5 * 2^attempt * base < 2^65`, which keeps both the delay product and the
delay-plus-jitter sum inside int64), the computed backoff lies in the
half-open interval `[base * 2^attempt, base * 2^attempt * 1.25)`.  Outside
this regime the int64 multiplication wraps and the bounds fail. -/
theorem c9_backoff_bounds (attempt : Nat) (base : ℤ) (r : ℚ)
    (hb : 0 < base) (hr0 : 0 ≤ r) (hr1 : r < 1)
    (hsmall : 5 * (2 ^ attempt * base) < 2 ^ 65) :
    2 ^ attempt * base ≤ ExponentialBackoff attempt base r
    ∧ ((ExponentialBackoff attempt base r : ℚ)
        < (5 / 4) * ((2 ^ attempt * base : ℤ) : ℚ)) := by
  have hdpos : (0:ℤ) < 2 ^ attempt * base :=
    mul_pos (pow_pos (by norm_num) _) hb
  have hp : (0:ℤ) < 2 ^ 63 := by positivity
  have h65 : (2:ℤ) ^ 65 = 4 * 2 ^ 63 := by norm_num
  have hdlt : 2 ^ attempt * base < 2 ^ 63 := by linarith
  have hwd : wrap64 (2 ^ attempt * base) = 2 ^ attempt * base :=
    wrap64_eq_self (by linarith) hdlt
  have hq : (0:ℚ) < ((2 ^ attempt * base : ℤ) : ℚ) := by exact_mod_cast hdpos
  have hval : (0:ℚ) ≤ r * (1/4) * ((2 ^ attempt * base : ℤ) : ℚ) := by positivity
  have hje : ratTrunc (r * (1/4) * ((2 ^ attempt * base : ℤ) : ℚ))
      = ⌊r * (1/4) * ((2 ^ attempt * base : ℤ) : ℚ)⌋ := by
    unfold ratTrunc
    rw [if_pos hval]
  have hle : ((⌊r * (1/4) * ((2 ^ attempt * base : ℤ) : ℚ)⌋ : ℤ) : ℚ)
      ≤ r * (1/4) * ((2 ^ attempt * base : ℤ) : ℚ) := Int.floor_le _
  have hjnn : (0:ℤ) ≤ ⌊r * (1/4) * ((2 ^ attempt * base : ℤ) : ℚ)⌋ :=
    Int.floor_nonneg.mpr hval
  have h1r : (0:ℚ) < 1 - r := by linarith
  have hub : r * (1/4) * ((2 ^ attempt * base : ℤ) : ℚ)
      < (1/4) * ((2 ^ attempt * base : ℤ) : ℚ) := by
    nlinarith [mul_pos h1r hq]
  have hj4 : 4 * ⌊r * (1/4) * ((2 ^ attempt * base : ℤ) : ℚ)⌋
      < 2 ^ attempt * base := by
    have hc : ((4 * ⌊r * (1/4) * ((2 ^ attempt * base : ℤ) : ℚ)⌋ : ℤ) : ℚ)
        < ((2 ^ attempt * base : ℤ) : ℚ) := by
      push_cast
      push_cast at hle hub
      linarith
    exact_mod_cast hc
  have hsum_lt : 2 ^ attempt * base
      + ⌊r * (1/4) * ((2 ^ attempt * base : ℤ) : ℚ)⌋ < 2 ^ 63 := by linarith
  have hsum_ge : -(2 ^ 63) ≤ 2 ^ attempt * base
      + ⌊r * (1/4) * ((2 ^ attempt * base : ℤ) : ℚ)⌋ := by linarith
  have hEB : ExponentialBackoff attempt base r
      = 2 ^ attempt * base + ⌊r * (1/4) * ((2 ^ attempt * base : ℤ) : ℚ)⌋ := by
    simp only [ExponentialBackoff]
    rw [hwd, hje, wrap64_eq_self hsum_ge hsum_lt]
  constructor
  · rw [hEB]
    linarith
  · rw [hEB]
    push_cast at hle hub hq ⊢
    linarith

/-- Witness for C9 (amended): `attempt = 1`, `base = 100`, `r = 1/2` gives
a backoff of 225, inside `[200, 250)`, the no-wrap bound holding. -/
theorem c9_witness :
    (0:ℤ) < 100 ∧ (0:ℚ) ≤ 1/2 ∧ (1/2:ℚ) < 1
    ∧ 5 * (2 ^ 1 * 100) < (2:ℤ) ^ 65
    ∧ 2 ^ 1 * 100 ≤ ExponentialBackoff 1 100 (1/2)
    ∧ ((ExponentialBackoff 1 100 (1/2) : ℚ) < (5 / 4) * ((2 ^ 1 * 100 : ℤ) : ℚ)) :=
  ⟨by norm_num, by norm_num, by norm_num, by norm_num,
   (c9_backoff_bounds 1 100 (1/2) (by norm_num) (by norm_num) (by norm_num)
     (by norm_num)).1,
   (c9_backoff_bounds 1 100 (1/2) (by norm_num) (by norm_num) (by norm_num)
     (by norm_num)).2⟩

end PstnTransfer
